import Mathlib

/-!
Verification development for the layout3mesh geometry/model engine.

The development shallowly embeds the core of `src/layout3mesh/layout3mesh.py`
and `src/layout3mesh/data.py`:

* polygon winding classification and shell/hole assembly
  (`_is_counter_clockwise` and the per-polygon body of `render_to_mesh`),
* layer-stack loading and via resolution (`load_layerstack`),
* the `LayerStack` container of `data.py`,
* top-cell selection, colour-map construction and scene composition in
  `render_to_mesh`.

Numeric layout coordinates and heights (numpy floats in the source) are
modelled as rationals; layer/datatype numbers as integers.  Python
exceptions (assert failures, `ValueError`, `KeyError`, `AttributeError`,
`TypeError`, `IndexError`) are modelled by `Except String`.
-/

namespace Layout3Mesh

/-! ## Geometry: points, edges, winding classification

Source: `layout3mesh.py` lines 141-153 (`_is_counter_clockwise`) and
lines 220-243 (the shell/hole assembly inside `render_to_mesh`). -/

/-- A 2D point, as handed to the classifier from `poly.points`. -/
abbrev Point := ℚ × ℚ

/-- A directed edge, a pair of points. -/
abbrev Edge := Point × Point

/-- The 2D cross product used by `np.cross(vec1, vec2)` on 2-vectors. -/
def cross2 (v w : ℚ × ℚ) : ℚ := v.1 * w.2 - v.2 * w.1

/-- Pointwise difference of points, `e[1] - e[0]` in the source. -/
def vsub (a b : Point) : Point := (a.1 - b.1, a.2 - b.2)

/-- Source `_is_counter_clockwise(e1, e2)`:
`vec1 = e1[1] - e1[0]; vec2 = e2[1] - e2[0]; return np.cross(vec1, vec2) <= 0`. -/
def is_counter_clockwise (e1 e2 : Edge) : Bool :=
  decide (cross2 (vsub e1.2 e1.1) (vsub e2.2 e2.1) ≤ 0)

/-- Source `edges = list(zip(vertices[:-1], vertices[1:]))`. -/
def mkEdges (vs : List Point) : List Edge := vs.zip vs.tail

/-- Source `edge_pairs = list(zip(edges[:-1], edges[1:]))`. -/
def edgePairs (es : List Edge) : List (Edge × Edge) := es.zip es.tail

/-- First-seen-order deduplication, the behaviour of
`list(OrderedDict.fromkeys(xs))` in the source.  The accumulator holds the
elements already emitted. -/
def dedupFirstAux {α : Type} [DecidableEq α] : List α → List α → List α
  | [], _ => []
  | a :: l, seen => if a ∈ seen then dedupFirstAux l seen else a :: dedupFirstAux l (a :: seen)

/-- `list(OrderedDict.fromkeys(l))`: keep the first occurrence of each element. -/
def dedupFirst {α : Type} [DecidableEq α] (l : List α) : List α := dedupFirstAux l []

/-- Shell assembly from `render_to_mesh` (lines 226-232): collect both edges of
every edge pair classified counter-clockwise, deduplicate the edges keeping
first-seen order, then collect the endpoint vertices of those edges and
deduplicate again. -/
def shellOf (vs : List Point) : List Point :=
  dedupFirst
    ((dedupFirst
        (((edgePairs (mkEdges vs)).filter
            (fun ep => is_counter_clockwise ep.1 ep.2)).flatMap
          (fun ep => [ep.1, ep.2]))).flatMap
      (fun e => [e.1, e.2]))

/-- Hole assembly from `render_to_mesh` (lines 234-243): collect both edges of
every edge pair classified clockwise, deduplicate keeping first-seen order,
reverse the edge list, then collect endpoint vertices and deduplicate. -/
def holesOf (vs : List Point) : List Point :=
  dedupFirst
    (((dedupFirst
        (((edgePairs (mkEdges vs)).filter
            (fun ep => !(is_counter_clockwise ep.1 ep.2))).flatMap
          (fun ep => [ep.1, ep.2]))).reverse).flatMap
      (fun e => [e.1, e.2]))

/-- The square ring of the claim, traversed `(0,0) (1,0) (1,1) (0,1)`. -/
def sqRing : List Point := [(0,0),(1,0),(1,1),(0,1)]

/-- The same square traversed in the opposite direction. -/
def sqRingRev : List Point := [(0,0),(0,1),(1,1),(1,0)]

/-- Claim C1, counterexample: on the ring `[(0,0),(1,0),(1,1),(0,1)]` every
edge-pair cross product is `+1 > 0`, so the code classifies every turn as
clockwise: the assembled shell is empty (it does not contain the 4 corner
vertices) and the hole sequence is the 4 corners, not empty. -/
theorem c1_square_counterexample :
    shellOf sqRing = [] ∧ holesOf sqRing = [(1,1),(0,1),(1,0),(0,0)] := by
  constructor <;>
    norm_num [shellOf, holesOf, sqRing, edgePairs, mkEdges, is_counter_clockwise,
      cross2, vsub, dedupFirst, dedupFirstAux, List.filter, List.zip, List.zipWith,
      Prod.ext_iff]

/-- Claim C1 (amended): for every polygon ring all of whose consecutive edge
pairs are classified counter-clockwise (cross product `≤ 0`), the produced
hole sequence is empty; the particular ring `[(0,0),(1,0),(1,1),(0,1)]` is
classified all-clockwise by the code (see the counterexample), and it is the
oppositely traversed square `[(0,0),(0,1),(1,1),(1,0)]` whose shell recovers
all 4 corners with an empty hole sequence. -/
theorem c1_convex_holes_empty :
    (∀ vs : List Point,
      (∀ ep ∈ edgePairs (mkEdges vs), is_counter_clockwise ep.1 ep.2 = true) →
      holesOf vs = []) ∧
    shellOf sqRingRev = [(0,0),(0,1),(1,1),(1,0)] ∧ holesOf sqRingRev = [] := by
  refine ⟨?_, ?_, ?_⟩
  · intro vs hall
    have hfe : (edgePairs (mkEdges vs)).filter
        (fun ep => !(is_counter_clockwise ep.1 ep.2)) = [] := by
      rw [List.filter_eq_nil_iff]
      intro ep hep
      rw [hall ep hep]
      decide
    rw [holesOf, hfe]
    rfl
  · norm_num [shellOf, sqRingRev, edgePairs, mkEdges, is_counter_clockwise,
      cross2, vsub, dedupFirst, dedupFirstAux, List.filter, List.zip, List.zipWith,
      Prod.ext_iff]
  · norm_num [holesOf, sqRingRev, edgePairs, mkEdges, is_counter_clockwise,
      cross2, vsub, dedupFirst, dedupFirstAux, List.filter, List.zip, List.zipWith,
      Prod.ext_iff]

/-- Claim C1 witness: the all-counter-clockwise hypothesis of the amended
theorem holds for the reversed square, and the theorem then yields its empty
hole sequence. -/
theorem c1_convex_holes_empty_witness :
    (∀ ep ∈ edgePairs (mkEdges sqRingRev), is_counter_clockwise ep.1 ep.2 = true) ∧
    holesOf sqRingRev = [] := by
  have hlist : edgePairs (mkEdges sqRingRev) =
      [(((0,0),(0,1)), ((0,1),(1,1))), (((0,1),(1,1)), ((1,1),(1,0)))] := rfl
  have hall : ∀ ep ∈ edgePairs (mkEdges sqRingRev),
      is_counter_clockwise ep.1 ep.2 = true := by
    intro ep hep
    rw [hlist] at hep
    rcases List.mem_cons.mp hep with h | hep
    · subst h
      simp only [is_counter_clockwise, decide_eq_true_eq, cross2, vsub]
      norm_num
    rcases List.mem_cons.mp hep with h | hep
    · subst h
      simp only [is_counter_clockwise, decide_eq_true_eq, cross2, vsub]
      norm_num
    · simp at hep
  exact ⟨hall, c1_convex_holes_empty.1 sqRingRev hall⟩

/-- Claim C2: for a ring of `n` vertices the code builds exactly the `n - 1`
directed edges joining consecutive vertices at indices `0 .. n-2` (no closing
edge from the last vertex back to the first), pairs consecutive edges, and
classifies an edge pair as a counter-clockwise turn exactly when the 2D cross
product of the two direction vectors is `≤ 0`. -/
theorem c2_edges_and_classification :
    (∀ vs : List Point, (mkEdges vs).length = vs.length - 1) ∧
    (∀ (vs : List Point) (i : ℕ) (h : i + 1 < vs.length),
      (mkEdges vs).get ⟨i, by simp [mkEdges]; omega⟩ = (vs[i], vs[i+1])) ∧
    (∀ (es : List Edge) (i : ℕ) (h : i + 1 < es.length),
      (edgePairs es).get ⟨i, by simp [edgePairs]; omega⟩ = (es[i], es[i+1])) ∧
    (∀ e1 e2 : Edge, is_counter_clockwise e1 e2 = true ↔
      cross2 (vsub e1.2 e1.1) (vsub e2.2 e2.1) ≤ 0) := by
  refine ⟨?_, ?_, ?_, ?_⟩
  · intro vs
    simp [mkEdges]
  · intro vs i h
    simp [mkEdges, List.get_eq_getElem, List.getElem_zip, List.getElem_tail]
  · intro es i h
    simp [edgePairs, List.get_eq_getElem, List.getElem_zip, List.getElem_tail]
  · intro e1 e2
    simp [is_counter_clockwise]

/-- Claim C2 witness: instantiation on the concrete square ring at index 0. -/
theorem c2_edges_and_classification_witness :
    (mkEdges sqRing).length = sqRing.length - 1 ∧
    (0 : ℕ) + 1 < sqRing.length ∧
    (mkEdges sqRing).get ⟨0, by simp [mkEdges, sqRing]⟩ = (sqRing[0], sqRing[1]) ∧
    (is_counter_clockwise ((0,0),(1,0)) ((1,0),(1,1)) = true ↔
      cross2 (vsub (1,0) (0,0)) (vsub (1,1) (1,0)) ≤ 0) := by
  refine ⟨c2_edges_and_classification.1 sqRing, by simp [sqRing], ?_, ?_⟩
  · exact c2_edges_and_classification.2.1 sqRing 0 (by simp [sqRing])
  · exact c2_edges_and_classification.2.2.2 ((0,0),(1,0)) ((1,0),(1,1))

/-! ## Data model

Source: `src/layout3mesh/data.py`.  Fields that the Python dataclasses allow
to be `None` at runtime (everything read with `.get(...)` from the YAML
document) are modelled as `Option`. -/

/-- Source dataclass `Material` (texture id and RGBA); both fields come from
`metadata.get("rgba")` / `metadata.get("text")` and may be absent. -/
structure Material where
  text : Option String
  rgba : Option (List ℤ)
deriving DecidableEq

/-- Source dataclass `LayerMetadata`. -/
structure LayerMetadata where
  type : String
  keys : Option (List String)
  material : Material
deriving DecidableEq

/-- Source dataclass `LayerProperties`; `ly`/`dt` are always present after
validation, the rest is optional with `None` defaults. -/
structure LayerProperties where
  ly : ℤ
  dt : ℤ
  top : Option String := none
  bot : Option String := none
  zh : Option ℚ := none
  th : Option ℚ := none
  mw : Option ℚ := none
  sqrres : Option ℚ := none
  dc_avgcd : Option ℚ := none
  ac_rmscd : Option ℚ := none
  sqrcap : Option ℚ := none
deriving DecidableEq

/-- Source dataclass `Layer`. -/
structure Layer where
  name : String
  lydt : ℤ × ℤ
  metadata : Option LayerMetadata
  properties : Option LayerProperties
deriving DecidableEq

/-- An entry of the `LayerStack` mapping: dict key and stored layer. -/
abbrev StackEntry := (ℤ × ℤ) × Layer

/-- Source dataclass `LayerStack`, a dict from `(ly, dt)` to `Layer`, modelled
as an insertion-ordered association list. -/
structure LayerStack where
  layers : List StackEntry
deriving DecidableEq

/-- Association-list lookup mirroring `dict.get`: the first pair with the key. -/
def lookupKey (st : List StackEntry) (k : ℤ × ℤ) : Option Layer :=
  (st.find? (fun p => decide (p.1 = k))).map Prod.snd

/-- Source `LayerStack.__getitem__`: `return self.layers.get(key)` — total,
yields `none` instead of raising on a missing key. -/
def LayerStack.getItem (s : LayerStack) (k : ℤ × ℤ) : Option Layer :=
  lookupKey s.layers k

/-- Dict insertion `layerstack[lydt] = layer`: replace in place when the key
exists (dicts keep the original position), otherwise append. -/
def insertKey (st : List StackEntry) (kv : StackEntry) : List StackEntry :=
  if st.any (fun p => decide (p.1 = kv.1)) then
    st.map (fun p => if p.1 = kv.1 then kv else p)
  else st ++ [kv]

/-! ## Layer-stack loading

Source: `load_layerstack`, `layout3mesh.py` lines 48-138.  The YAML document
is modelled already parsed into `Config`; file-existence and extension checks
concern the filesystem and are outside this embedding. -/

/-- The `metadata` sub-document of one named layer entry. -/
structure RawMetadata where
  type : Option String
  keys : Option (List String)
  rgba : Option (List ℤ)
  text : Option String
deriving DecidableEq

/-- The `properties` sub-document of one named layer entry (the six fields the
loader reads). -/
structure RawProperties where
  ly : Option ℤ
  dt : Option ℤ
  zh : Option ℚ := none
  th : Option ℚ := none
  top : Option String := none
  bot : Option String := none
deriving DecidableEq

/-- One named layer entry of the YAML document. -/
structure RawLayer where
  metadata : Option RawMetadata
  properties : Option RawProperties
deriving DecidableEq

/-- The whole YAML document: the top-level `layers` mapping in document order. -/
structure Config where
  layers : Option (List (String × RawLayer))
deriving DecidableEq

/-- Validation and construction of one `Layer` (source lines 79-115): missing
metadata, missing/empty metadata type, missing properties, or missing `ly`/`dt`
raise; otherwise the `Layer` keyed by `(ly, dt)` is built. -/
def parseLayer (layerkey : String) (rl : RawLayer) : Except String StackEntry :=
  match rl.metadata with
  | none => .error "Layer is missing metadata."
  | some md =>
    match md.type with
    | none => .error "Layer is missing metadata type."
    | some ty =>
      if ty = "" then .error "Layer is missing metadata type." else
      match rl.properties with
      | none => .error "Layer is missing properties."
      | some props =>
        match props.ly, props.dt with
        | some ly, some dt =>
          let mat : Material := { text := md.text, rgba := md.rgba }
          let lmd : LayerMetadata := { type := ty, keys := md.keys, material := mat }
          let lprops : LayerProperties :=
            { ly := ly, dt := dt, top := props.top, bot := props.bot,
              zh := props.zh, th := props.th }
          .ok ((ly, dt),
            { name := layerkey, lydt := (ly, dt), metadata := some lmd,
              properties := some lprops })
        | _, _ => .error "Layer is missing properties ly or dt."

/-- One iteration of the construction loop: parse the entry, insert under its
`(ly, dt)` key. -/
def parseStep (acc : List StackEntry) (e : String × RawLayer) :
    Except String (List StackEntry) :=
  match parseLayer e.1 e.2 with
  | .error msg => .error msg
  | .ok kv => .ok (insertKey acc kv)

/-- Python truthiness of `layer.metadata.type == "cut"` on a `Layer`; accessing
`.type` on `None` metadata is an `AttributeError`, checked separately. -/
def isCutB (l : Layer) : Bool :=
  match l.metadata with
  | some md => decide (md.type = "cut")
  | none => false

/-- Whether position `i` of the stack holds a cut (via) layer. -/
def cutIdx (st : List StackEntry) (i : ℕ) : Bool :=
  match st[i]? with
  | some p => isCutB p.2
  | none => false

/-- First layer of the stack (in `values()` order) whose `name` is `nm`:
source `[layer for layer in layerstack.values() if layer.name == top][0]`. -/
def firstByName (st : List StackEntry) (nm : String) : Option Layer :=
  ((st.map Prod.snd).find? (fun l => decide (l.name = nm)))

/-- One iteration of the via-resolution loop (source lines 120-135) on the via
layer at position `i`: read `top`/`bot` names (asserted truthy), resolve both
names to the first matching layers, read `bot.th`, `bot.zh`, `top.zh`, then
overwrite the via's `zh` with `bot.zh + bot.th` and its `th` with
`top.zh - zh`.  Every Python exception becomes an error. -/
def viaStep (st : List StackEntry) (i : ℕ) : Except String (List StackEntry) :=
  match st[i]? with
  | none => .error "IndexError: list index out of range"
  | some kv =>
    match kv.2.properties with
    | none => .error "AttributeError: properties is None"
    | some props =>
      match props.top with
      | none => .error "Layer is missing top property."
      | some topName =>
      if topName = "" then .error "Layer is missing top property." else
      match props.bot with
      | none => .error "Layer is missing bot property."
      | some botName =>
      if botName = "" then .error "Layer is missing bot property." else
      match firstByName st topName with
      | none => .error "IndexError: list index out of range"
      | some top_layer =>
      match firstByName st botName with
      | none => .error "IndexError: list index out of range"
      | some bot_layer =>
      match bot_layer.properties with
      | none => .error "AttributeError: properties is None"
      | some bprops =>
      match top_layer.properties with
      | none => .error "AttributeError: properties is None"
      | some tprops =>
      match bprops.zh, bprops.th, tprops.zh with
      | some bot_zh, some bot_th, some top_zh =>
        .ok (st.set i (kv.1,
          { kv.2 with properties := some { props with
              zh := some (bot_zh + bot_th),
              th := some (top_zh - (bot_zh + bot_th)) } }))
      | _, _, _ => .error "TypeError: unsupported operand for NoneType"

/-- The via-resolution pass (source lines 117-135): the list of cut layers is
computed once up front (touching every layer's `metadata.type`, hence an
`AttributeError` if any metadata is `None`), then each via is resolved in
stack order, mutating the stack in place. -/
def viaPass (st : List StackEntry) : Except String (List StackEntry) :=
  if st.all (fun p => p.2.metadata.isSome) then
    ((List.range st.length).filter (fun i => cutIdx st i)).foldlM viaStep st
  else .error "AttributeError: metadata is None"

/-- Source `load_layerstack` after YAML decoding: reject a missing or empty
`layers` mapping, build the keyed stack entry by entry, run the via pass,
wrap the result. -/
def load_layerstack (cfg : Config) : Except String LayerStack :=
  match cfg.layers with
  | none => .error "Layerstack is missing layers."
  | some [] => .error "Layerstack is missing layers."
  | some (e :: rest) =>
    match (e :: rest).foldlM parseStep [] with
    | .error m => .error m
    | .ok parsed =>
      match viaPass parsed with
      | .error m => .error m
      | .ok resolved => .ok ⟨resolved⟩

/-! ## Claim C9: totality of `LayerStack.__getitem__` -/

theorem lookupKey_of_not_mem {st : List StackEntry} {k : ℤ × ℤ}
    (h : k ∉ st.map Prod.fst) : lookupKey st k = none := by
  induction st with
  | nil => rfl
  | cons p rest ih =>
    simp only [List.map_cons, List.mem_cons, not_or] at h
    have hp : (decide (p.1 = k)) = false := by
      simp only [decide_eq_false_iff_not]
      exact fun he => h.1 (he ▸ rfl)
    simp only [lookupKey, List.find?_cons, hp]
    exact ih h.2

theorem lookupKey_of_mem {st : List StackEntry} {k : ℤ × ℤ} {l : Layer}
    (hnd : (st.map Prod.fst).Nodup) (h : (k, l) ∈ st) :
    lookupKey st k = some l := by
  induction st with
  | nil => cases h
  | cons p rest ih =>
    rcases List.mem_cons.mp h with he | htl
    · subst he
      simp [lookupKey, List.find?_cons]
    · simp only [List.map_cons, List.nodup_cons] at hnd
      have hk : k ≠ p.1 := by
        intro he
        exact hnd.1 (he ▸ List.mem_map_of_mem Prod.fst htl)
      have hp : (decide (p.1 = k)) = false := by
        simp only [decide_eq_false_iff_not]
        exact fun h2 => hk h2.symm
      simp only [lookupKey, List.find?_cons, hp]
      exact ih hnd.2 htl

/-- Claim C9: `LayerStack` indexing is total: on a stack with unique keys it
returns the stored layer for a present key and `none` (no exception) for an
absent key. -/
theorem c9_getitem_total :
    ∀ (s : LayerStack) (k : ℤ × ℤ),
      ((s.layers.map Prod.fst).Nodup →
        ∀ l : Layer, (k, l) ∈ s.layers → s.getItem k = some l) ∧
      (k ∉ s.layers.map Prod.fst → s.getItem k = none) := by
  intro s k
  exact ⟨fun hnd l hm => lookupKey_of_mem hnd hm, fun h => lookupKey_of_not_mem h⟩

/-- A concrete one-layer stack for the C9 witness. -/
def wLayer9 : Layer :=
  { name := "met1", lydt := (2, 0), metadata := none, properties := none }

/-- Claim C9 witness: on the stack holding only key `(2,0)`, lookup of `(2,0)`
returns the stored layer and lookup of `(1,0)` returns `none`, as in the
repository's own test (`layerstack[(2, 0)]`, `layerstack[(1, 0)] is None`). -/
theorem c9_getitem_total_witness :
    (((LayerStack.mk [((2, 0), wLayer9)]).layers.map Prod.fst).Nodup ∧
      (LayerStack.mk [((2, 0), wLayer9)]).getItem (2, 0) = some wLayer9) ∧
    ((1, 0) ∉ (LayerStack.mk [((2, 0), wLayer9)]).layers.map Prod.fst ∧
      (LayerStack.mk [((2, 0), wLayer9)]).getItem (1, 0) = none) := by
  refine ⟨⟨by decide, ?_⟩, ⟨by decide, ?_⟩⟩
  · exact (c9_getitem_total (LayerStack.mk [((2, 0), wLayer9)]) (2, 0)).1
      (by decide) wLayer9 (by decide)
  · exact (c9_getitem_total (LayerStack.mk [((2, 0), wLayer9)]) (1, 0)).2 (by decide)

/-! ## Claim C6: configuration validation errors -/

theorem exc_bind_ok {α β : Type} (a : α) (f : α → Except String β) :
    (Except.ok a >>= f) = f a := rfl

theorem exc_bind_error {α β : Type} (m : String) (f : α → Except String β) :
    ((Except.error m : Except String α) >>= f) = .error m := rfl

/-- A raw layer entry lacking metadata, metadata type, properties, or `ly`/`dt`
makes `parseLayer` fail, whatever the entry's name. -/
theorem parseLayer_bad_error (rl : RawLayer) (nm : String)
    (hbad : rl.metadata = none ∨
      (∃ md, rl.metadata = some md ∧ md.type = none) ∨
      rl.properties = none ∨
      (∃ p, rl.properties = some p ∧ (p.ly = none ∨ p.dt = none))) :
    ∃ e, parseLayer nm rl = .error e := by
  cases hm : rl.metadata with
  | none => exact ⟨"Layer is missing metadata.", by simp [parseLayer, hm]⟩
  | some md =>
    cases ht : md.type with
    | none => exact ⟨"Layer is missing metadata type.", by simp [parseLayer, hm, ht]⟩
    | some ty =>
      by_cases hty : ty = ""
      · exact ⟨"Layer is missing metadata type.", by simp [parseLayer, hm, ht, hty]⟩
      cases hp : rl.properties with
      | none => exact ⟨"Layer is missing properties.", by simp [parseLayer, hm, ht, hty, hp]⟩
      | some p =>
        have hld : p.ly = none ∨ p.dt = none := by
          rcases hbad with h | ⟨md2, hmd2, hts⟩ | h | ⟨p2, hp2, h⟩
          · rw [hm] at h
            cases h
          · rw [hm] at hmd2
            injection hmd2 with he
            subst he
            rw [ht] at hts
            cases hts
          · rw [hp] at h
            cases h
          · rw [hp] at hp2
            injection hp2 with he
            subst he
            exact h
        refine ⟨"Layer is missing properties ly or dt.", ?_⟩
        rcases hld with h | h
        · simp [parseLayer, hm, ht, hty, hp, h]
        · cases hly : p.ly <;> simp [parseLayer, hm, ht, hty, hp, hly, h]

/-- If some entry of the document always fails to parse, the whole
construction fold fails, from any accumulator. -/
theorem parse_fold_error :
    ∀ (ls : List (String × RawLayer)) (acc : List StackEntry)
      (name : String) (rl : RawLayer),
      (name, rl) ∈ ls →
      (∀ nm, ∃ e, parseLayer nm rl = .error e) →
      ∃ e, ls.foldlM parseStep acc = .error e := by
  intro ls
  induction ls with
  | nil =>
    intro acc name rl h
    cases h
  | cons hd tl ih =>
    intro acc name rl hmem hbad
    rw [List.foldlM_cons]
    rcases List.mem_cons.mp hmem with he | htl
    · obtain ⟨e, hpe⟩ := hbad name
      have hps : parseStep acc hd = .error e := by
        rw [← he]
        simp [parseStep, hpe]
      rw [hps, exc_bind_error]
      exact ⟨e, rfl⟩
    · cases hps : parseStep acc hd with
      | error m =>
        rw [exc_bind_error]
        exact ⟨m, rfl⟩
      | ok acc2 =>
        obtain ⟨e, hfe⟩ := ih acc2 name rl htl hbad
        rw [exc_bind_ok]
        exact ⟨e, hfe⟩

/-- Claim C6: `load_layerstack` fails with a configuration error whenever some
named layer entry lacks metadata, lacks a metadata type, lacks properties, or
lacks the `ly` or `dt` property; no `LayerStack` is returned on such input. -/
theorem c6_load_missing_fields_error :
    ∀ (cfg : Config) (ls : List (String × RawLayer)) (name : String) (rl : RawLayer),
      cfg.layers = some ls → (name, rl) ∈ ls →
      (rl.metadata = none ∨
        (∃ md, rl.metadata = some md ∧ md.type = none) ∨
        rl.properties = none ∨
        (∃ p, rl.properties = some p ∧ (p.ly = none ∨ p.dt = none))) →
      ∃ e, load_layerstack cfg = .error e := by
  intro cfg ls name rl hcfg hmem hbad
  cases ls with
  | nil => cases hmem
  | cons hd tl =>
    obtain ⟨e, hfe⟩ := parse_fold_error (hd :: tl) [] name rl hmem
      (fun nm => parseLayer_bad_error rl nm hbad)
    exact ⟨e, by simp [load_layerstack, hcfg, hfe]⟩

/-- A layer entry with metadata but no properties, for the C6 witness. -/
def rawBadC6 : RawLayer :=
  { metadata := some { type := some "routing", keys := none, rgba := none, text := none },
    properties := none }

/-- A configuration whose single entry lacks properties. -/
def cfgBadC6 : Config := { layers := some [("met1", rawBadC6)] }

/-- Claim C6 witness: the concrete configuration with one entry lacking
properties makes `load_layerstack` fail. -/
theorem c6_load_missing_fields_error_witness :
    cfgBadC6.layers = some [("met1", rawBadC6)] ∧
    ("met1", rawBadC6) ∈ [("met1", rawBadC6)] ∧
    rawBadC6.properties = none ∧
    ∃ e, load_layerstack cfgBadC6 = .error e :=
  ⟨rfl, by simp, rfl,
    c6_load_missing_fields_error cfgBadC6 [("met1", rawBadC6)] "met1" rawBadC6
      rfl (by simp) (Or.inr (Or.inr (Or.inl rfl)))⟩

/-! ## Frame analysis of the via-resolution pass (claims C10 and C3) -/

/-- Equality of layer properties on every field except `zh` and `th`. -/
def lpFrameEq (p q : LayerProperties) : Prop :=
  q.ly = p.ly ∧ q.dt = p.dt ∧ q.top = p.top ∧ q.bot = p.bot ∧ q.mw = p.mw ∧
    q.sqrres = p.sqrres ∧ q.dc_avgcd = p.dc_avgcd ∧ q.ac_rmscd = p.ac_rmscd ∧
    q.sqrcap = p.sqrcap

/-- Frame relation on optional properties: present on both sides and equal
outside `zh`/`th`, or absent on both sides. -/
def optPropsFrameEq : Option LayerProperties → Option LayerProperties → Prop
  | none, none => True
  | some p, some q => lpFrameEq p q
  | _, _ => False

/-- Frame relation on stack entries: the dict key, the layer's name, `lydt`,
metadata, and every property other than `zh`/`th` agree. -/
def entryFrameEq (p q : StackEntry) : Prop :=
  q.1 = p.1 ∧ q.2.name = p.2.name ∧ q.2.lydt = p.2.lydt ∧
    q.2.metadata = p.2.metadata ∧ optPropsFrameEq p.2.properties q.2.properties

theorem entryFrameEq_refl (p : StackEntry) : entryFrameEq p p := by
  refine ⟨rfl, rfl, rfl, rfl, ?_⟩
  cases p.2.properties <;> simp [optPropsFrameEq, lpFrameEq]

theorem entryFrameEq_trans {p q r : StackEntry}
    (h1 : entryFrameEq p q) (h2 : entryFrameEq q r) : entryFrameEq p r := by
  obtain ⟨a1, b1, c1, d1, e1⟩ := h1
  obtain ⟨a2, b2, c2, d2, e2⟩ := h2
  refine ⟨a2.trans a1, b2.trans b1, c2.trans c1, d2.trans d1, ?_⟩
  cases hp : p.2.properties <;> cases hq : q.2.properties <;>
    cases hr : r.2.properties <;>
    simp only [hp, hq, hr, optPropsFrameEq] at e1 e2 ⊢ <;> try exact e1
  obtain ⟨x1, x2, x3, x4, x5, x6, x7, x8, x9⟩ := e1
  obtain ⟨y1, y2, y3, y4, y5, y6, y7, y8, y9⟩ := e2
  exact ⟨y1.trans x1, y2.trans x2, y3.trans x3, y4.trans x4, y5.trans x5,
    y6.trans x6, y7.trans x7, y8.trans x8, y9.trans x9⟩

/-- Full inversion of a successful `viaStep`: all the reads it performed and
the exact in-place update it made. -/
theorem viaStep_ok_inv {st : List StackEntry} {i : ℕ} {out : List StackEntry}
    (h : viaStep st i = .ok out) :
    ∃ kv props tn bn topL botL bps tps bzh bth tzh,
      st[i]? = some kv ∧ kv.2.properties = some props ∧
      props.top = some tn ∧ props.bot = some bn ∧
      firstByName st tn = some topL ∧ firstByName st bn = some botL ∧
      botL.properties = some bps ∧ topL.properties = some tps ∧
      bps.zh = some bzh ∧ bps.th = some bth ∧ tps.zh = some tzh ∧
      out = st.set i (kv.1,
        { kv.2 with properties := some { props with
            zh := some (bzh + bth), th := some (tzh - (bzh + bth)) } }) := by
  unfold viaStep at h
  split at h
  · exact Except.noConfusion h
  next kv hkv =>
    split at h
    · exact Except.noConfusion h
    next props hprops =>
      split at h
      · exact Except.noConfusion h
      next tn htn =>
        split at h
        · exact Except.noConfusion h
        next htne =>
          split at h
          · exact Except.noConfusion h
          next bn hbn =>
            split at h
            · exact Except.noConfusion h
            next hbne =>
              split at h
              · exact Except.noConfusion h
              next topL htopL =>
                split at h
                · exact Except.noConfusion h
                next botL hbotL =>
                  split at h
                  · exact Except.noConfusion h
                  next bps hbps =>
                    split at h
                    · exact Except.noConfusion h
                    next tps htps =>
                      split at h
                      next bzh bth tzh hbzh hbth htzh =>
                        injection h with h2
                        exact ⟨kv, props, tn, bn, topL, botL, bps, tps, bzh, bth, tzh,
                          hkv, hprops, htn, hbn, htopL, hbotL, hbps, htps,
                          hbzh, hbth, htzh, h2.symm⟩
                      next => exact Except.noConfusion h

/-- The invariant carried through the via-resolution fold, relating the stack
before the pass to the current state: lengths agree, non-cut positions are
untouched, and every position agrees outside `zh`/`th`. -/
def FrameInv (orig cur : List StackEntry) : Prop :=
  cur.length = orig.length ∧
  (∀ j : ℕ, cutIdx orig j = false → cur[j]? = orig[j]?) ∧
  (∀ (j : ℕ) (kv kv2 : StackEntry),
    orig[j]? = some kv → cur[j]? = some kv2 → entryFrameEq kv kv2)

theorem FrameInv_refl (orig : List StackEntry) : FrameInv orig orig := by
  refine ⟨rfl, fun j _ => rfl, fun j kv kv2 h1 h2 => ?_⟩
  rw [h1] at h2
  injection h2 with h2
  exact h2 ▸ entryFrameEq_refl kv

theorem cutIdx_eq_true_iff {st : List StackEntry} {i : ℕ} :
    cutIdx st i = true ↔ ∃ kv, st[i]? = some kv ∧ isCutB kv.2 = true := by
  unfold cutIdx
  cases h : st[i]? <;> simp

/-- Positions keep their cut/non-cut status under the frame invariant. -/
theorem FrameInv_cutIdx {orig cur : List StackEntry}
    (h : FrameInv orig cur) (j : ℕ) : cutIdx cur j = cutIdx orig j := by
  obtain ⟨hlen, _, hfr⟩ := h
  cases ho : orig[j]? with
  | none =>
    have hc : cur[j]? = none := by
      rw [List.getElem?_eq_none_iff] at ho ⊢
      omega
    unfold cutIdx
    rw [ho, hc]
  | some kv =>
    have hj : j < cur.length := by
      have := (List.getElem?_eq_some_iff.mp ho).1
      omega
    obtain ⟨kv2, hc⟩ : ∃ kv2, cur[j]? = some kv2 :=
      ⟨cur[j], List.getElem?_eq_some_iff.mpr ⟨hj, rfl⟩⟩
    have hfe := hfr j kv kv2 ho hc
    unfold cutIdx
    rw [ho, hc]
    show isCutB kv2.2 = isCutB kv.2
    unfold isCutB
    rw [hfe.2.2.2.1]

/-- A successful `viaStep` on a cut position preserves the frame invariant. -/
theorem FrameInv_step {orig cur cur2 : List StackEntry} {i : ℕ}
    (hcut : cutIdx orig i = true) (hinv : FrameInv orig cur)
    (h : viaStep cur i = .ok cur2) : FrameInv orig cur2 := by
  obtain ⟨kv, props, tn, bn, topL, botL, bps, tps, bzh, bth, tzh,
    hkv, hprops, _, _, _, _, _, _, _, _, _, hout⟩ := viaStep_ok_inv h
  obtain ⟨hlen, hnc, hfr⟩ := hinv
  have hilt : i < cur.length := (List.getElem?_eq_some_iff.mp hkv).1
  refine ⟨?_, ?_, ?_⟩
  · rw [hout, List.length_set, hlen]
  · intro j hj
    have hne : i ≠ j := fun he => by rw [he] at hcut; rw [hcut] at hj; cases hj
    rw [hout, List.getElem?_set_ne hne]
    exact hnc j hj
  · intro j kv0 kv2 ho hc
    by_cases hij : i = j
    · subst hij
      rw [hout, List.getElem?_set_self hilt] at hc
      injection hc with hc
      have hstep : entryFrameEq kv (kv.1,
          { kv.2 with properties := some { props with
              zh := some (bzh + bth), th := some (tzh - (bzh + bth)) } }) := by
        refine ⟨rfl, rfl, rfl, rfl, ?_⟩
        rw [hprops]
        exact ⟨rfl, rfl, rfl, rfl, rfl, rfl, rfl, rfl, rfl⟩
      exact hc ▸ entryFrameEq_trans (hfr i kv0 kv ho hkv) hstep
    · rw [hout, List.getElem?_set_ne hij] at hc
      exact hfr j kv0 kv2 ho hc

/-- Splitting a successful fold at its first index. -/
theorem foldlM_via_cons {i : ℕ} {idxs : List ℕ} {cur out : List StackEntry}
    (h : (i :: idxs).foldlM viaStep cur = .ok out) :
    ∃ mid, viaStep cur i = .ok mid ∧ idxs.foldlM viaStep mid = .ok out := by
  rw [List.foldlM_cons] at h
  cases hv : viaStep cur i with
  | error m =>
    rw [hv, exc_bind_error] at h
    exact Except.noConfusion h
  | ok mid =>
    rw [hv, exc_bind_ok] at h
    exact ⟨mid, rfl, h⟩

/-- Positions outside the processed index list are untouched by the fold. -/
theorem fold_frame :
    ∀ (idxs : List ℕ) (cur out : List StackEntry),
      idxs.foldlM viaStep cur = .ok out → ∀ j : ℕ, j ∉ idxs → out[j]? = cur[j]? := by
  intro idxs
  induction idxs with
  | nil =>
    intro cur out h j _
    rw [List.foldlM_nil] at h
    injection h with h
    rw [h]
  | cons i rest ih =>
    intro cur out h j hj
    obtain ⟨mid, hstep, hrest⟩ := foldlM_via_cons h
    obtain ⟨kv, _, _, _, _, _, _, _, _, _, _, hkv, _, _, _, _, _, _, _, _, _, _,
      hout⟩ := viaStep_ok_inv hstep
    have hji : j ≠ i := fun he => hj (he ▸ List.mem_cons_self i rest)
    have hmid : mid[j]? = cur[j]? := by
      rw [hout, List.getElem?_set_ne (fun he => hji he.symm)]
    rw [ih mid out hrest j (fun hm => hj (List.mem_cons_of_mem i hm)), hmid]

/-- The frame invariant is preserved by the whole fold over cut positions. -/
theorem FrameInv_fold :
    ∀ (idxs : List ℕ) (orig cur out : List StackEntry),
      (∀ i ∈ idxs, cutIdx orig i = true) → FrameInv orig cur →
      idxs.foldlM viaStep cur = .ok out → FrameInv orig out := by
  intro idxs
  induction idxs with
  | nil =>
    intro orig cur out _ hinv h
    rw [List.foldlM_nil] at h
    injection h with h
    rw [← h]
    exact hinv
  | cons i rest ih =>
    intro orig cur out hcut hinv h
    obtain ⟨mid, hstep, hrest⟩ := foldlM_via_cons h
    exact ih orig mid out (fun k hk => hcut k (List.mem_cons_of_mem i hk))
      (FrameInv_step (hcut i (List.mem_cons_self i rest)) hinv hstep) hrest

/-- Inversion of a successful `viaPass`: all metadata present, and the fold
over the cut positions of the input succeeded. -/
theorem viaPass_ok_inv {st out : List StackEntry} (h : viaPass st = .ok out) :
    (st.all (fun p => p.2.metadata.isSome) = true) ∧
    ((List.range st.length).filter (fun i => cutIdx st i)).foldlM viaStep st
      = .ok out := by
  unfold viaPass at h
  split at h
  next hall => exact ⟨hall, h⟩
  next => exact Except.noConfusion h

/-- Claim C10: the via-resolution pass only rewrites the `zh` and `th`
properties of cut layers: the stack keeps its length, every non-cut position
is left entirely unchanged, and at every position the key, name, `lydt`,
metadata and all properties other than `zh`/`th` are unchanged. -/
theorem c10_via_pass_frame :
    ∀ (st out : List StackEntry), viaPass st = .ok out →
      out.length = st.length ∧
      (∀ j : ℕ, cutIdx st j = false → out[j]? = st[j]?) ∧
      (∀ (j : ℕ) (kv kv2 : StackEntry),
        st[j]? = some kv → out[j]? = some kv2 → entryFrameEq kv kv2) := by
  intro st out h
  obtain ⟨_, hfold⟩ := viaPass_ok_inv h
  exact FrameInv_fold _ st st out
    (fun i hi => (List.mem_filter.mp hi).2) (FrameInv_refl st) hfold

/-! ## Positional analysis of `firstByName` (claim C3) -/

/-- Index of the first layer with the given name, mirroring `firstByName`. -/
def nameIdx : List StackEntry → String → Option ℕ
  | [], _ => none
  | p :: rest, nm => if p.2.name = nm then some 0 else (nameIdx rest nm).map (· + 1)

theorem firstByName_eq_idx :
    ∀ (st : List StackEntry) (nm : String),
      firstByName st nm = (nameIdx st nm).bind (fun j => (st[j]?).map Prod.snd) := by
  intro st
  induction st with
  | nil => intro nm; rfl
  | cons p rest ih =>
    intro nm
    by_cases h : p.2.name = nm
    · simp [firstByName, nameIdx, h, List.find?_cons]
    · have hfind : firstByName (p :: rest) nm = firstByName rest nm := by
        simp [firstByName, List.find?_cons, h]
      rw [hfind, ih nm]
      cases hn : nameIdx rest nm with
      | none => simp [nameIdx, h, hn]
      | some j => simp [nameIdx, h, hn]

theorem firstByName_elim :
    ∀ (st : List StackEntry) (nm : String) (l : Layer),
      firstByName st nm = some l →
      ∃ (j : ℕ) (kv : StackEntry), nameIdx st nm = some j ∧ st[j]? = some kv ∧ kv.2 = l := by
  intro st
  induction st with
  | nil =>
    intro nm l h
    exact Option.noConfusion h
  | cons p rest ih =>
    intro nm l h
    by_cases h0 : p.2.name = nm
    · have : firstByName (p :: rest) nm = some p.2 := by
        simp [firstByName, List.find?_cons, h0]
      rw [this] at h
      exact ⟨0, p, by simp [nameIdx, h0], by simp, Option.some.inj h⟩
    · have hfind : firstByName (p :: rest) nm = firstByName rest nm := by
        simp [firstByName, List.find?_cons, h0]
      rw [hfind] at h
      obtain ⟨j, kv, hn, hj, hkv⟩ := ih nm l h
      exact ⟨j + 1, kv, by simp [nameIdx, h0, hn], by simpa using hj, hkv⟩

/-- `nameIdx` only depends on the pointwise sequence of layer names. -/
theorem nameIdx_congr :
    ∀ (a b : List StackEntry), a.length = b.length →
      (∀ (j : ℕ) (kva kvb : StackEntry), a[j]? = some kva → b[j]? = some kvb →
        kva.2.name = kvb.2.name) →
      ∀ nm, nameIdx a nm = nameIdx b nm := by
  intro a
  induction a with
  | nil =>
    intro b hl _ nm
    cases b with
    | nil => rfl
    | cons q tb => simp at hl
  | cons p ta ih =>
    intro b hl hn nm
    cases b with
    | nil => simp at hl
    | cons q tb =>
      have h0 : p.2.name = q.2.name := hn 0 p q (by simp) (by simp)
      have htl : ta.length = tb.length := by simpa using hl
      have hntl : ∀ (j : ℕ) (kva kvb : StackEntry), ta[j]? = some kva →
          tb[j]? = some kvb → kva.2.name = kvb.2.name := by
        intro j kva kvb h1 h2
        exact hn (j + 1) kva kvb (by simpa using h1) (by simpa using h2)
      by_cases hq : q.2.name = nm
      · simp [nameIdx, h0, hq]
      · simp [nameIdx, h0, hq, ih tb htl hntl nm]

/-- Core of the amended claim C3, at the level of the via pass: when a
resolved via's `top`/`bot` names resolve (first match by name) to layers that
are not themselves cut layers, the resolved `zh`/`th` satisfy the derivation
equations with respect to the final stack. -/
theorem viaPass_noncut_refs :
    ∀ (parsed resolved : List StackEntry), viaPass parsed = .ok resolved →
    ∀ (i : ℕ) (kv : StackEntry) (props : LayerProperties) (tn bn : String)
      (topL botL : Layer),
      resolved[i]? = some kv → isCutB kv.2 = true →
      kv.2.properties = some props → props.top = some tn → props.bot = some bn →
      firstByName resolved tn = some topL →
      firstByName resolved bn = some botL →
      isCutB topL = false → isCutB botL = false →
      ∃ (bps tps : LayerProperties) (bzh bth tzh : ℚ),
        botL.properties = some bps ∧ bps.zh = some bzh ∧ bps.th = some bth ∧
        topL.properties = some tps ∧ tps.zh = some tzh ∧
        props.zh = some (bzh + bth) ∧ props.th = some (tzh - (bzh + bth)) := by
  intro parsed resolved hvp i kv props tn bn topL botL hkv hcut hprops htn hbn
    htopL hbotL htopNC hbotNC
  obtain ⟨hall, hfold⟩ := viaPass_ok_inv hvp
  set idxs := (List.range parsed.length).filter (fun k => cutIdx parsed k) with hidxs
  have hallcut : ∀ k ∈ idxs, cutIdx parsed k = true :=
    fun k hk => (List.mem_filter.mp hk).2
  have hInvFull : FrameInv parsed resolved :=
    FrameInv_fold idxs parsed parsed resolved hallcut (FrameInv_refl parsed) hfold
  have hcutRes : cutIdx resolved i = true := cutIdx_eq_true_iff.mpr ⟨kv, hkv, hcut⟩
  have hcutP : cutIdx parsed i = true := by
    rw [← FrameInv_cutIdx hInvFull i]
    exact hcutRes
  have hiLt : i < parsed.length := by
    rcases cutIdx_eq_true_iff.mp hcutP with ⟨kv0, hkv0, _⟩
    exact (List.getElem?_eq_some_iff.mp hkv0).1
  have hmem : i ∈ idxs := by
    rw [hidxs]
    exact List.mem_filter.mpr ⟨List.mem_range.mpr hiLt, hcutP⟩
  obtain ⟨l1, l2, hsplit⟩ := List.append_of_mem hmem
  have hnd : idxs.Nodup := by
    rw [hidxs]
    exact (List.nodup_range parsed.length).filter _
  rw [hsplit] at hnd hfold
  have hni1 : i ∉ l1 := by
    rw [List.nodup_append] at hnd
    exact fun hm => hnd.2.2 hm (List.mem_cons_self i l2)
  have hni2 : i ∉ l2 := by
    rw [List.nodup_append] at hnd
    exact (List.nodup_cons.mp hnd.2.1).1
  have hl1cut : ∀ k ∈ l1, cutIdx parsed k = true := by
    intro k hk
    refine hallcut k ?_
    rw [hsplit]
    exact List.mem_append_left _ hk
  rw [List.foldlM_append] at hfold
  cases h1 : List.foldlM viaStep parsed l1 with
  | error m =>
    rw [h1, exc_bind_error] at hfold
    exact Except.noConfusion hfold
  | ok s1 =>
    rw [h1, exc_bind_ok] at hfold
    obtain ⟨s2, hstep, hrest⟩ := foldlM_via_cons hfold
    have hInv1 : FrameInv parsed s1 :=
      FrameInv_fold l1 parsed parsed s1 hl1cut (FrameInv_refl parsed) h1
    obtain ⟨kv1, props1, tn1, bn1, topL1, botL1, bps1, tps1, bzh, bth, tzh,
      hkv1, hprops1, htn1, hbn1, htopL1, hbotL1, hbps1, htps1, hbzh, hbth, htzh,
      hout⟩ := viaStep_ok_inv hstep
    have hresI : resolved[i]? = s2[i]? := fold_frame l2 s2 resolved hrest i hni2
    have hiLt1 : i < s1.length := (List.getElem?_eq_some_iff.mp hkv1).1
    have hs2I : s2[i]? = some (kv1.1, { kv1.2 with properties := some { props1 with
        zh := some (bzh + bth), th := some (tzh - (bzh + bth)) } }) := by
      rw [hout]
      exact List.getElem?_set_self hiLt1
    rw [hresI, hs2I] at hkv
    have hkvEq : kv = (kv1.1, { kv1.2 with properties := some { props1 with
        zh := some (bzh + bth), th := some (tzh - (bzh + bth)) } }) :=
      (Option.some.inj hkv).symm
    have hpropsEq : props = { props1 with
        zh := some (bzh + bth), th := some (tzh - (bzh + bth)) } := by
      rw [hkvEq] at hprops
      exact (Option.some.inj hprops).symm
    have htnEq : tn1 = tn := by
      rw [hpropsEq] at htn
      have h2 : props1.top = some tn := htn
      rw [htn1] at h2
      exact Option.some.inj h2
    have hbnEq : bn1 = bn := by
      rw [hpropsEq] at hbn
      have h2 : props1.bot = some bn := hbn
      rw [hbn1] at h2
      exact Option.some.inj h2
    have hnames1 : ∀ (j : ℕ) (kva kvb : StackEntry), parsed[j]? = some kva →
        s1[j]? = some kvb → kva.2.name = kvb.2.name :=
      fun j kva kvb ha hb => ((hInv1.2.2 j kva kvb ha hb).2.1).symm
    have hnamesF : ∀ (j : ℕ) (kva kvb : StackEntry), parsed[j]? = some kva →
        resolved[j]? = some kvb → kva.2.name = kvb.2.name :=
      fun j kva kvb ha hb => ((hInvFull.2.2 j kva kvb ha hb).2.1).symm
    have hidx1 : ∀ nm, nameIdx parsed nm = nameIdx s1 nm :=
      nameIdx_congr parsed s1 hInv1.1.symm hnames1
    have hidxF : ∀ nm, nameIdx parsed nm = nameIdx resolved nm :=
      nameIdx_congr parsed resolved hInvFull.1.symm hnamesF
    -- identify the layer found at a non-cut position in two fold states
    have key : ∀ (nm : String) (lR l1L : Layer), firstByName resolved nm = some lR →
        firstByName s1 nm = some l1L → isCutB lR = false → l1L = lR := by
      intro nm lR l1L hR h1L hNC
      obtain ⟨jR, kvR, hnR, hjR, hvR⟩ := firstByName_elim resolved nm lR hR
      obtain ⟨j1, kv1b, hn1, hj1, hv1⟩ := firstByName_elim s1 nm l1L h1L
      have hj : j1 = jR := by
        have e1 : nameIdx s1 nm = nameIdx resolved nm := (hidx1 nm).symm.trans (hidxF nm)
        rw [e1, hnR] at hn1
        exact (Option.some.inj hn1).symm
      subst hj
      have hcutRj : cutIdx resolved j1 = false := by
        unfold cutIdx
        rw [hjR]
        show isCutB kvR.2 = false
        rw [hvR]
        exact hNC
      have hcutPj : cutIdx parsed j1 = false := by
        rw [← FrameInv_cutIdx hInvFull j1]
        exact hcutRj
      have hpj1 : s1[j1]? = parsed[j1]? := hInv1.2.1 j1 hcutPj
      have hpjF : resolved[j1]? = parsed[j1]? := hInvFull.2.1 j1 hcutPj
      rw [hpj1, ← hpjF, hjR] at hj1
      rw [← hvR, ← hv1, Option.some.inj hj1]
    have hbotEq : botL1 = botL := by
      refine key bn botL botL1 hbotL ?_ hbotNC
      rw [← hbnEq]
      exact hbotL1
    have htopEq : topL1 = topL := by
      refine key tn topL topL1 htopL ?_ htopNC
      rw [← htnEq]
      exact htopL1
    refine ⟨bps1, tps1, bzh, bth, tzh, ?_, hbzh, hbth, ?_, htzh, ?_, ?_⟩
    · rw [← hbotEq]
      exact hbps1
    · rw [← htopEq]
      exact htps1
    · rw [hpropsEq]
    · rw [hpropsEq]

/-! ## Concrete stacks for claims C3 and C10 -/

/-- An empty material, shared by the concrete examples. -/
def materialNone : Material := { text := none, rgba := none }

/-- Metadata of a cut (via) layer. -/
def metaCut : LayerMetadata := { type := "cut", keys := none, material := materialNone }

/-- Metadata of a routing layer. -/
def metaRouting : LayerMetadata := { type := "routing", keys := none, material := materialNone }

/-- Raw cut metadata for configuration documents. -/
def rawMetaCut : RawMetadata := { type := some "cut", keys := none, rgba := none, text := none }

/-- Raw routing metadata for configuration documents. -/
def rawMetaRouting : RawMetadata :=
  { type := some "routing", keys := none, rgba := none, text := none }

/-- Via `A` referencing via `B` as its bottom layer. -/
def rawViaA : RawLayer :=
  { metadata := some rawMetaCut,
    properties := some { ly := some 1, dt := some 0, top := some "M2", bot := some "B" } }

/-- Via `B` with declared placement, itself later re-resolved. -/
def rawPropsB : RawProperties :=
  { ly := some 2, dt := some 0, zh := some 0, th := some 1,
    top := some "M2", bot := some "M1" }

def rawViaB : RawLayer :=
  { metadata := some rawMetaCut, properties := some rawPropsB }

/-- Routing layer `M1`. -/
def rawM1 : RawLayer :=
  { metadata := some rawMetaRouting,
    properties := some { ly := some 3, dt := some 0, zh := some 10, th := some 5 } }

/-- Routing layer `M2`. -/
def rawM2 : RawLayer :=
  { metadata := some rawMetaRouting,
    properties := some { ly := some 4, dt := some 0, zh := some 100, th := some 1 } }

/-- A configuration in which via `A`'s bottom reference is itself a via that is
re-resolved after `A`. -/
def cfgChained : Config :=
  { layers := some [("A", rawViaA), ("B", rawViaB), ("M1", rawM1), ("M2", rawM2)] }

/-- Resolved properties of via `A`: computed from `B`'s declared `zh = 0`,
`th = 1` before `B` itself is re-resolved. -/
def propsAOut : LayerProperties :=
  { ly := 1, dt := 0, top := some "M2", bot := some "B",
    zh := some ((0 : ℚ) + 1), th := some ((100 : ℚ) - ((0 : ℚ) + 1)) }

/-- Via `A` after resolution. -/
def layerAOut : Layer :=
  { name := "A", lydt := (1, 0), metadata := some metaCut, properties := some propsAOut }

/-- Resolved properties of via `B`, overwriting its declared placement. -/
def propsBOut : LayerProperties :=
  { ly := 2, dt := 0, top := some "M2", bot := some "M1",
    zh := some ((10 : ℚ) + 5), th := some ((100 : ℚ) - ((10 : ℚ) + 5)) }

/-- Via `B` after resolution. -/
def layerBOut : Layer :=
  { name := "B", lydt := (2, 0), metadata := some metaCut, properties := some propsBOut }

/-- Routing layer `M1` as loaded. -/
def layerM1 : Layer :=
  { name := "M1", lydt := (3, 0), metadata := some metaRouting,
    properties := some { ly := 3, dt := 0, zh := some 10, th := some 5 } }

/-- Routing layer `M2` as loaded. -/
def layerM2 : Layer :=
  { name := "M2", lydt := (4, 0), metadata := some metaRouting,
    properties := some { ly := 4, dt := 0, zh := some 100, th := some 1 } }

/-- The stack produced by `load_layerstack` on `cfgChained`. -/
def stC3out : List StackEntry :=
  [((1, 0), layerAOut), ((2, 0), layerBOut), ((3, 0), layerM1), ((4, 0), layerM2)]

/-- Claim C3, counterexample: on `cfgChained` the load succeeds, the cut layer
`A` has `bot = "B"`, the first layer named `B` in the final stack has
`zh = 15` and `th = 85`, yet `A`'s resolved `zh` is `1 ≠ 15 + 85`: the
equation `zh_via = bot.zh + bot.th` fails against the final stack because `B`
was re-resolved after `A` read it. -/
theorem c3_via_resolution_counterexample :
    load_layerstack cfgChained = .ok ⟨stC3out⟩ ∧
    stC3out[0]? = some ((1, 0), layerAOut) ∧
    isCutB layerAOut = true ∧
    layerAOut.properties = some propsAOut ∧
    propsAOut.bot = some "B" ∧
    firstByName stC3out "B" = some layerBOut ∧
    propsAOut.zh = some 1 ∧
    layerBOut.properties = some propsBOut ∧
    propsBOut.zh = some 15 ∧ propsBOut.th = some 85 ∧
    (1 : ℚ) ≠ 15 + 85 := by
  refine ⟨rfl, rfl, by decide, rfl, rfl, rfl, ?_, rfl, ?_, ?_, by norm_num⟩
  · show some ((0 : ℚ) + 1) = some 1
    norm_num
  · show some ((10 : ℚ) + 5) = some 15
    norm_num
  · show some ((100 : ℚ) - ((10 : ℚ) + 5)) = some 85
    norm_num

/-- Claim C3 (amended): after `load_layerstack` completes, every cut layer
whose `top` and `bot` names resolve (first match by name in the final stack)
to layers that are not themselves cut layers satisfies
`zh_via = bot.zh + bot.th` and `th_via = top.zh - zh_via` (hence
`zh_via + th_via = top.zh`), with all values present.  The restriction to
non-cut referenced layers is forced by the counterexample: a via referencing
another via reads values that the pass later overwrites. -/
theorem c3_via_resolution_noncut_refs :
    ∀ (cfg : Config) (st : LayerStack), load_layerstack cfg = .ok st →
    ∀ (i : ℕ) (kv : StackEntry) (props : LayerProperties) (tn bn : String)
      (topL botL : Layer),
      st.layers[i]? = some kv → isCutB kv.2 = true →
      kv.2.properties = some props → props.top = some tn → props.bot = some bn →
      firstByName st.layers tn = some topL →
      firstByName st.layers bn = some botL →
      isCutB topL = false → isCutB botL = false →
      ∃ (bps tps : LayerProperties) (bzh bth tzh : ℚ),
        botL.properties = some bps ∧ bps.zh = some bzh ∧ bps.th = some bth ∧
        topL.properties = some tps ∧ tps.zh = some tzh ∧
        props.zh = some (bzh + bth) ∧ props.th = some (tzh - (bzh + bth)) := by
  intro cfg st hload
  unfold load_layerstack at hload
  split at hload
  · exact Except.noConfusion hload
  · exact Except.noConfusion hload
  next e rest heq =>
    cases hparse : List.foldlM parseStep [] (e :: rest) with
    | error m =>
      rw [hparse] at hload
      exact Except.noConfusion hload
    | ok parsed =>
      rw [hparse] at hload
      have hload2 : (match viaPass parsed with
          | Except.error m => (Except.error m : Except String LayerStack)
          | Except.ok resolved => Except.ok ⟨resolved⟩) = Except.ok st := hload
      cases hvp : viaPass parsed with
      | error m =>
        rw [hvp] at hload2
        exact Except.noConfusion hload2
      | ok resolved =>
        rw [hvp] at hload2
        have hload3 : (Except.ok (⟨resolved⟩ : LayerStack) : Except String LayerStack)
            = Except.ok st := hload2
        injection hload3 with hload4
        have hlay : st.layers = resolved := by
          rw [← hload4]
        rw [hlay]
        exact viaPass_noncut_refs parsed resolved hvp

/-- Raw properties of the well-formed via. -/
def rawPropsViaW : RawProperties :=
  { ly := some 1, dt := some 0, top := some "met2", bot := some "met1" }

/-- The well-formed via entry. -/
def rawViaW : RawLayer := { metadata := some rawMetaCut, properties := some rawPropsViaW }

/-- Raw properties of routing layer `met1`. -/
def rawPropsMet1W : RawProperties :=
  { ly := some 2, dt := some 0, zh := some 0, th := some 1 }

/-- The `met1` entry. -/
def rawMet1W : RawLayer :=
  { metadata := some rawMetaRouting, properties := some rawPropsMet1W }

/-- Raw properties of routing layer `met2`. -/
def rawPropsMet2W : RawProperties :=
  { ly := some 3, dt := some 0, zh := some 10, th := some 2 }

/-- The `met2` entry. -/
def rawMet2W : RawLayer :=
  { metadata := some rawMetaRouting, properties := some rawPropsMet2W }

/-- A well-formed configuration: one via between two routing layers. -/
def cfgGoodC3 : Config :=
  { layers := some [("via1", rawViaW), ("met1", rawMet1W), ("met2", rawMet2W)] }

/-- Resolved properties of the via of `cfgGoodC3`. -/
def propsViaWOut : LayerProperties :=
  { ly := 1, dt := 0, top := some "met2", bot := some "met1",
    zh := some ((0 : ℚ) + 1), th := some ((10 : ℚ) - ((0 : ℚ) + 1)) }

/-- The via of `cfgGoodC3` after resolution. -/
def layerViaWOut : Layer :=
  { name := "via1", lydt := (1, 0), metadata := some metaCut,
    properties := some propsViaWOut }

/-- Routing layer `met1` of `cfgGoodC3`. -/
def layerMet1W : Layer :=
  { name := "met1", lydt := (2, 0), metadata := some metaRouting,
    properties := some { ly := 2, dt := 0, zh := some 0, th := some 1 } }

/-- Routing layer `met2` of `cfgGoodC3`. -/
def layerMet2W : Layer :=
  { name := "met2", lydt := (3, 0), metadata := some metaRouting,
    properties := some { ly := 3, dt := 0, zh := some 10, th := some 2 } }

/-- The stack produced by `load_layerstack` on `cfgGoodC3`. -/
def stGoodOut : List StackEntry :=
  [((1, 0), layerViaWOut), ((2, 0), layerMet1W), ((3, 0), layerMet2W)]

/-- Claim C3 witness: on the one-via configuration the load succeeds, the
via's references are non-cut routing layers, and the amended theorem yields
the derivation equations. -/
theorem c3_via_resolution_noncut_refs_witness :
    load_layerstack cfgGoodC3 = .ok ⟨stGoodOut⟩ ∧
    (LayerStack.mk stGoodOut).layers[0]? = some ((1, 0), layerViaWOut) ∧
    isCutB layerViaWOut = true ∧
    layerViaWOut.properties = some propsViaWOut ∧
    propsViaWOut.top = some "met2" ∧ propsViaWOut.bot = some "met1" ∧
    firstByName (LayerStack.mk stGoodOut).layers "met2" = some layerMet2W ∧
    firstByName (LayerStack.mk stGoodOut).layers "met1" = some layerMet1W ∧
    isCutB layerMet2W = false ∧ isCutB layerMet1W = false ∧
    (∃ (bps tps : LayerProperties) (bzh bth tzh : ℚ),
      layerMet1W.properties = some bps ∧ bps.zh = some bzh ∧ bps.th = some bth ∧
      layerMet2W.properties = some tps ∧ tps.zh = some tzh ∧
      propsViaWOut.zh = some (bzh + bth) ∧
      propsViaWOut.th = some (tzh - (bzh + bth))) := by
  have hload : load_layerstack cfgGoodC3 = .ok ⟨stGoodOut⟩ := rfl
  refine ⟨hload, rfl, by decide, rfl, rfl, rfl, rfl, rfl, by decide, by decide, ?_⟩
  exact c3_via_resolution_noncut_refs cfgGoodC3 ⟨stGoodOut⟩ hload 0
    ((1, 0), layerViaWOut) propsViaWOut "met2" "met1" layerMet2W layerMet1W
    rfl (by decide) rfl rfl rfl rfl rfl (by decide) (by decide)

/-- Unresolved properties of the witness via. -/
def propsVia10 : LayerProperties :=
  { ly := 1, dt := 0, top := some "met2", bot := some "met1" }

/-- The witness via before the pass. -/
def layerVia10 : Layer :=
  { name := "via1", lydt := (1, 0), metadata := some metaCut,
    properties := some propsVia10 }

/-- A three-layer stack (one via, two routing layers) for the C10 witness. -/
def wStack10 : List StackEntry :=
  [((1, 0), layerVia10), ((2, 0), layerMet1W), ((3, 0), layerMet2W)]

/-- Resolved properties of the witness via. -/
def propsVia10Out : LayerProperties :=
  { ly := 1, dt := 0, top := some "met2", bot := some "met1",
    zh := some ((0 : ℚ) + 1), th := some ((10 : ℚ) - ((0 : ℚ) + 1)) }

/-- The witness via after the pass. -/
def layerVia10Out : Layer :=
  { name := "via1", lydt := (1, 0), metadata := some metaCut,
    properties := some propsVia10Out }

/-- `wStack10` after the via pass. -/
def wStack10out : List StackEntry :=
  [((1, 0), layerVia10Out), ((2, 0), layerMet1W), ((3, 0), layerMet2W)]

/-- Claim C10 witness: the via pass succeeds on the concrete stack, and the
theorem yields that the non-cut position 1 is untouched. -/
theorem c10_via_pass_frame_witness :
    viaPass wStack10 = .ok wStack10out ∧
    cutIdx wStack10 1 = false ∧
    wStack10out[1]? = wStack10[1]? := by
  have hpass : viaPass wStack10 = .ok wStack10out := rfl
  exact ⟨hpass, by decide,
    (c10_via_pass_frame wStack10 wStack10out hpass).2.1 1 (by decide)⟩

/-! ## Rendering: top-cell selection, colour maps, scene composition

Source: `render_to_mesh`, `layout3mesh.py` lines 156-264.  The layout library
is modelled as its list of cells; an output path by its extension suffix
(`Path(out).suffix`); the external shapely/trimesh calls receive the
assembled shell and hole vertex lists and the extrusion parameters, recorded
in `Solid`. -/

/-- An output path, abstracted to its `Path(out).suffix`. -/
structure OutPath where
  suffix : String
deriving DecidableEq

/-- Source `_OUT_FILE_EXTENSIONS`. -/
def _OUT_FILE_EXTENSIONS : List String := [".gltf", ".glb", ".obj", ".stl", ".ply"]

/-- A layout cell: name, planar area, and its polygons grouped by
`(layer, datatype)` in the stable order returned by `get_polygons`. -/
structure Cell where
  name : String
  area : ℚ
  polys : List ((ℤ × ℤ) × List (List Point))
deriving DecidableEq

/-- `tcell.get_polygons(layer=layer, datatype=datatype)`. -/
def getPolygons (c : Cell) (k : ℤ × ℤ) : List (List Point) :=
  match c.polys.find? (fun p => decide (p.1 = k)) with
  | some p => p.2
  | none => []

/-- Source `max(layout.cells, key=lambda cell: cell.area())`: Python `max`
keeps the first maximal element, replacing only on strict increase; on an
empty cell list it raises. -/
def maxAreaCell : List Cell → Option Cell
  | [] => none
  | c :: cs => some (cs.foldl (fun best x => if best.area < x.area then x else best) c)

/-- `layout[topcell]`: the cell with the given name. -/
def findCellByName (cells : List Cell) (nm : String) : Option Cell :=
  cells.find? (fun c => decide (c.name = nm))

/-- Top-cell selection (source lines 182-187): the maximum-area cell is
computed first; if the requested name is among the cell names the named cell
replaces it, otherwise the maximum-area cell is kept.  In the absent branch
the source evaluates `Warning(f"...")`, which merely constructs an exception
object and discards it: no warning is raised, logged, or printed, so the
embedding has no warning effect to record. -/
def selectTopCell (cells : List Cell) (topcell : Option String) : Option Cell :=
  match maxAreaCell cells with
  | none => none
  | some m =>
    match topcell with
    | some nm =>
      if nm ∈ cells.map (fun c => c.name) then findCellByName cells nm
      else some m
    | none => some m

/-- A face colour: the RGBA list of the layer's material (possibly absent). -/
abbrev Rgba := Option (List ℤ)

/-- The colour map: per `(layer, datatype)`, per polygon index. -/
abbrev Cmap := List ((ℤ × ℤ) × List (ℕ × Rgba))

/-- `cmap[(layer, datatype)][id]`: missing keys raise `KeyError`. -/
def cmapLookup (cm : Cmap) (k : ℤ × ℤ) (id : ℕ) : Except String Rgba :=
  match cm.find? (fun p => decide (p.1 = k)) with
  | none => .error "KeyError"
  | some layerMap =>
    match layerMap.2.find? (fun q => decide (q.1 = id)) with
    | none => .error "KeyError"
    | some q => .ok q.2

/-- Default colour-map construction for one layer (source lines 195-202):
each polygon id maps to the layer's material RGBA. -/
def buildCmapLayer (tcell : Cell) (stack : LayerStack) (k : ℤ × ℤ) :
    Except String ((ℤ × ℤ) × List (ℕ × Rgba)) :=
  match (getPolygons tcell k).enum.mapM (fun ip =>
      match stack.getItem k with
      | none => (.error "AttributeError: NoneType" : Except String (ℕ × Rgba))
      | some layer =>
        match layer.metadata with
        | none => .error "AttributeError: metadata is None"
        | some md => .ok (ip.1, md.material.rgba)) with
  | .error m => .error m
  | .ok entries => .ok (k, entries)

/-- Default colour-map construction over all stack keys (source lines 193-202). -/
def buildCmap (tcell : Cell) (stack : LayerStack) : Except String Cmap :=
  stack.layers.mapM (fun kv => buildCmapLayer tcell stack kv.1)

/-- Modelled from the spec: the 3D solid produced by the external
`trimesh.creation.extrude_polygon(spPoly, height, transform=translation_matrix([0, 0, zbot]))`
call on `Polygon(shell=shell, holes=holes)` (spec §4.4 SolidExtruder): side
walls along the shell and hole boundaries with flat caps at `z = zbase` and
`z = zbase + height`.  The extruder implementation lives in the external
trimesh/shapely collaborators, not in this repository; the record keeps the
exact data the call site passes. -/
structure Solid where
  shell : List Point
  holes : List Point
  zbase : ℚ
  height : ℚ
deriving DecidableEq

/-- Modelled from the spec: the cap vertices of the extruded solid, each
boundary vertex appearing on the bottom cap (`z = zbase`) and the top cap
(`z = zbase + height`). -/
def Solid.vertices3 (s : Solid) : List (ℚ × ℚ × ℚ) :=
  (s.shell ++ s.holes).flatMap
    (fun p => [(p.1, p.2, s.zbase), (p.1, p.2, s.zbase + s.height)])

/-- The multiset of Z coordinates of the solid's vertices. -/
def Solid.zs (s : Solid) : List ℚ := s.vertices3.map (fun v => v.2.2)

/-- One geometry node of the scene: name and id
`"layer,datatype,polygon-index"`, flat face colour, extruded solid. -/
structure GeomNode where
  nodeName : String
  nodeId : String
  color : Rgba
  solid : Solid
deriving DecidableEq

/-- The per-layer child scene, id `"layer,datatype,layer-name"`. -/
structure LayerScene where
  baseFrame : String
  sceneId : String
  nodes : List GeomNode
deriving DecidableEq

/-- The root scene: one child per `(layer, datatype)` key. -/
structure Scene3D where
  baseFrame : String
  sceneId : String
  layers : List (String × LayerScene)
deriving DecidableEq

/-- The `"layer,datatype"` string. -/
def keyStr (k : ℤ × ℤ) : String := toString k.1 ++ "," ++ toString k.2

/-- The `"layer,datatype,polygon-index"` string. -/
def nodeStr (k : ℤ × ℤ) (id : ℕ) : String := keyStr k ++ "," ++ toString id

/-- One geometry node (source lines 220-258): classify and assemble the
polygon's shell and holes, extrude at the layer's `zh` by its `th`, attach
the colour-map colour. -/
def mkNode (k : ℤ × ℤ) (id : ℕ) (poly : List Point) (zbot height : ℚ)
    (col : Rgba) : GeomNode :=
  { nodeName := nodeStr k id, nodeId := nodeStr k id, color := col,
    solid := { shell := shellOf poly, holes := holesOf poly, zbase := zbot, height := height } }

/-- The per-layer loop body of `render_to_mesh` (source lines 204-259):
look the layer up, assert its `zh`/`th` are present, then build one node per
polygon in the stable `get_polygons` order. -/
def renderLayer (tcell : Cell) (stack : LayerStack) (cm : Cmap) (k : ℤ × ℤ) :
    Except String (String × LayerScene) :=
  match stack.getItem k with
  | none => .error "AttributeError: NoneType"
  | some layer =>
    match layer.properties with
    | none => .error "AttributeError: properties is None"
    | some props =>
      match props.zh with
      | none => .error "Layer is missing property zh."
      | some zbot =>
      match props.th with
      | none => .error "Layer is missing property th."
      | some height =>
      match (getPolygons tcell k).enum.mapM (fun ip =>
          (cmapLookup cm k ip.1).map (fun col => mkNode k ip.1 ip.2 zbot height col)) with
      | .error m => .error m
      | .ok nodes =>
        .ok (keyStr k,
          { baseFrame := tcell.name, sceneId := keyStr k ++ "," ++ layer.name,
            nodes := nodes })

/-- The geometry part of `render_to_mesh` after the output-format check:
select the top cell, build the default colour map when none is supplied,
render every stack layer in stack order into the root scene. -/
def renderBody (layout : List Cell) (layerstack : LayerStack)
    (topcell : Option String) (cmap : Option Cmap) : Except String Scene3D :=
  match selectTopCell layout topcell with
  | none => .error "ValueError: max() arg is an empty sequence"
  | some tcell =>
    match (match cmap with
           | some cm => (.ok cm : Except String Cmap)
           | none => buildCmap tcell layerstack) with
    | .error m => .error m
    | .ok cm =>
      match layerstack.layers.mapM (fun kv => renderLayer tcell layerstack cm kv.1) with
      | .error m => .error m
      | .ok layers =>
        .ok { baseFrame := tcell.name, sceneId := tcell.name, layers := layers }

/-- Source `render_to_mesh` (lines 156-264): the output extension is checked
first (lines 175-180); an unsupported extension raises before any geometry
work; otherwise the scene is composed (and exported, outside this model). -/
def render_to_mesh (layout : List Cell) (layerstack : LayerStack)
    (topcell : Option String) (out : Option OutPath) (cmap : Option Cmap) :
    Except String Scene3D :=
  match out with
  | some p =>
    if p.suffix ∈ _OUT_FILE_EXTENSIONS then renderBody layout layerstack topcell cmap
    else .error "Unsupported output file format"
  | none => renderBody layout layerstack topcell cmap

/-- Claim C5: an output path whose extension is not among the supported 3D
formats makes `render_to_mesh` fail with the unsupported-format error for
every layout, stack, top-cell and colour map: the check is the first step of
the function, so no top-cell selection, classification, assembly or
extrusion happens and no scene (hence no scene node) is produced. -/
theorem c5_unsupported_extension_error :
    ∀ (layout : List Cell) (layerstack : LayerStack) (topcell : Option String)
      (cmap : Option Cmap) (p : OutPath),
      p.suffix ∉ _OUT_FILE_EXTENSIONS →
      render_to_mesh layout layerstack topcell (some p) cmap =
        .error "Unsupported output file format" := by
  intro l s t c p h
  simp [render_to_mesh, h]

/-- Claim C5 witness: a `.txt` output path fails on a concrete invocation. -/
theorem c5_unsupported_extension_error_witness :
    (OutPath.mk ".txt").suffix ∉ _OUT_FILE_EXTENSIONS ∧
    render_to_mesh [] (LayerStack.mk []) none (some (OutPath.mk ".txt")) none =
      .error "Unsupported output file format" := by
  have h : (OutPath.mk ".txt").suffix ∉ _OUT_FILE_EXTENSIONS := by decide
  exact ⟨h, c5_unsupported_extension_error [] (LayerStack.mk []) none none
    (OutPath.mk ".txt") h⟩

/-- An output argument that passes the extension check: absent, or with a
supported suffix. -/
def validOut (o : Option OutPath) : Prop :=
  o = none ∨ ∃ p, o = some p ∧ p.suffix ∈ _OUT_FILE_EXTENSIONS

/-- Claim C7: rendering is deterministic: with no explicit colour map, two
invocations on the same layout, stack and top-cell name produce the same
result scene — in particular identical node counts, node names and
per-polygon face colours — whatever (accepted) output arguments are used;
the scene depends only on the listed inputs. -/
theorem c7_render_deterministic :
    ∀ (layout : List Cell) (layerstack : LayerStack) (topcell : Option String)
      (o1 o2 : Option OutPath),
      validOut o1 → validOut o2 →
      render_to_mesh layout layerstack topcell o1 none =
        render_to_mesh layout layerstack topcell o2 none := by
  intro l s t o1 o2 h1 h2
  have e : ∀ o : Option OutPath, validOut o →
      render_to_mesh l s t o none = renderBody l s t none := by
    intro o ho
    rcases ho with h | ⟨p, hp, hmem⟩
    · rw [h]
      rfl
    · rw [hp]
      simp [render_to_mesh, hmem]
  rw [e o1 h1, e o2 h2]

/-- Claim C7 witness: a render with no output path and a render to a `.glb`
path agree on a concrete invocation. -/
theorem c7_render_deterministic_witness :
    validOut (none : Option OutPath) ∧
    validOut (some (OutPath.mk ".glb")) ∧
    render_to_mesh [] (LayerStack.mk []) none none none =
      render_to_mesh [] (LayerStack.mk []) none (some (OutPath.mk ".glb")) none :=
  ⟨Or.inl rfl, Or.inr ⟨OutPath.mk ".glb", rfl, by decide⟩,
    c7_render_deterministic [] (LayerStack.mk []) none none
      (some (OutPath.mk ".glb")) (Or.inl rfl) (Or.inr ⟨OutPath.mk ".glb", rfl, by decide⟩)⟩

/-- A small cell. -/
def cellSmall : Cell := { name := "A", area := 1, polys := [] }

/-- The first of two equal-area largest cells. -/
def cellBig : Cell := { name := "B", area := 2, polys := [] }

/-- The second of two equal-area largest cells. -/
def cellBig2 : Cell := { name := "C", area := 2, polys := [] }

/-- Claim C4, behaviour at the failing input: when the requested top-cell
name `"Z"` is absent the maximum-area cell is selected (ties kept at the
first encountered, `cellBig` over `cellBig2`), when the name is present the
named cell is selected, and with no requested name the maximum-area cell is
selected.  The source's `Warning(f"...")` in the absent branch constructs an
exception object and discards it, so no warning is emitted anywhere — the
selection is the only observable behaviour. -/
theorem c4_topcell_selection_eval :
    selectTopCell [cellSmall, cellBig, cellBig2] (some "Z") = some cellBig ∧
    selectTopCell [cellSmall, cellBig, cellBig2] (some "A") = some cellSmall ∧
    selectTopCell [cellSmall, cellBig, cellBig2] none = some cellBig := by
  have hmax : maxAreaCell [cellSmall, cellBig, cellBig2] = some cellBig := by
    unfold maxAreaCell
    simp only [List.foldl]
    rw [if_pos (by norm_num [cellSmall, cellBig] : cellSmall.area < cellBig.area)]
    rw [if_neg (by norm_num [cellBig, cellBig2] : ¬ cellBig.area < cellBig2.area)]
  have hnames : [cellSmall, cellBig, cellBig2].map (fun c => c.name)
      = ["A", "B", "C"] := rfl
  refine ⟨?_, ?_, ?_⟩
  · simp only [selectTopCell, hmax, hnames]
    rw [if_neg (by decide : ¬ ("Z" ∈ (["A", "B", "C"] : List String)))]
  · simp only [selectTopCell, hmax, hnames]
    rw [if_pos (by decide : ("A" ∈ (["A", "B", "C"] : List String)))]
    rfl
  · simp only [selectTopCell, hmax]

instance ratLeAntisymm : Std.Antisymm (fun a b : ℚ => a ≤ b) :=
  ⟨fun h1 h2 => le_antisymm h1 h2⟩

/-- Claim C8 (modelled from the spec, §4.4): for every solid with positive
height and a non-empty shell, the Z coordinates of the extruded vertices have
minimum exactly `zbase` and maximum exactly `zbase + height`: the bounding
volume in Z is exactly the interval `[zbase, zbase + height]`. -/
theorem c8_extrusion_z_extent :
    ∀ s : Solid, 0 < s.height → s.shell ≠ [] →
      s.zs.min? = some s.zbase ∧ s.zs.max? = some (s.zbase + s.height) := by
  intro s hh hs
  have hmem : ∀ b ∈ s.zs, b = s.zbase ∨ b = s.zbase + s.height := by
    intro b hb
    simp only [Solid.zs, Solid.vertices3, List.mem_map, List.mem_flatMap] at hb
    obtain ⟨v, ⟨p, _, hv⟩, hbv⟩ := hb
    simp only [List.mem_cons, List.not_mem_nil, or_false] at hv
    rcases hv with h | h <;> rw [← hbv, h]
    · exact Or.inl rfl
    · exact Or.inr rfl
  obtain ⟨p, t, hp⟩ : ∃ p t, s.shell = p :: t := by
    cases hsh : s.shell with
    | nil => exact absurd hsh hs
    | cons p t => exact ⟨p, t, rfl⟩
  have hpmem : p ∈ s.shell ++ s.holes := by
    rw [hp]
    exact List.mem_append_left _ (List.mem_cons_self p t)
  have hzbase : s.zbase ∈ s.zs := by
    simp only [Solid.zs, Solid.vertices3, List.mem_map, List.mem_flatMap]
    exact ⟨(p.1, p.2, s.zbase), ⟨p, hpmem, by simp⟩, rfl⟩
  have hztop : s.zbase + s.height ∈ s.zs := by
    simp only [Solid.zs, Solid.vertices3, List.mem_map, List.mem_flatMap]
    exact ⟨(p.1, p.2, s.zbase + s.height), ⟨p, hpmem, by simp⟩, rfl⟩
  constructor
  · rw [List.min?_eq_some_iff (fun a => le_refl a) (fun a b => min_choice a b)
      (fun a b c => le_min_iff)]
    refine ⟨hzbase, fun b hb => ?_⟩
    rcases hmem b hb with h | h <;> rw [h] <;> linarith
  · rw [List.max?_eq_some_iff (fun a => le_refl a) (fun a b => max_choice a b)
      (fun a b c => max_le_iff)]
    refine ⟨hztop, fun b hb => ?_⟩
    rcases hmem b hb with h | h <;> rw [h] <;> linarith

/-- The unit-square shell extruded with height 1 at base height 5. -/
def unitSquareSolid : Solid := { shell := sqRingRev, holes := [], zbase := 5, height := 1 }

/-- Claim C8 witness: the unit-square solid at `zbase = 5`, `height = 1`
spans exactly Z `[5, 6]`. -/
theorem c8_extrusion_z_extent_witness :
    (0 : ℚ) < unitSquareSolid.height ∧ unitSquareSolid.shell ≠ [] ∧
    unitSquareSolid.zs.min? = some 5 ∧ unitSquareSolid.zs.max? = some 6 := by
  have hh : (0 : ℚ) < unitSquareSolid.height := by norm_num [unitSquareSolid]
  have hs : unitSquareSolid.shell ≠ [] := by simp [unitSquareSolid, sqRingRev]
  have h := c8_extrusion_z_extent unitSquareSolid hh hs
  refine ⟨hh, hs, h.1, ?_⟩
  rw [show unitSquareSolid.zs.max? = some ((5 : ℚ) + 1) from h.2]
  norm_num

end Layout3Mesh
